import Mathlib

/-!
Shallow embedding of the job-recommendation ranking core
(`backend/services/recommendation.py` together with the data model in
`backend/models/user.py` and `backend/models/job.py`).

Modelling conventions:
* Python strings are lists of characters (`Str`); `str.lower()` is a
  character-wise `Char.toLower`, `a in b` on strings is `List.IsInfix`,
  and `str.split()` splits on runs of whitespace discarding empties.
* Python floats are modelled as exact rationals `ℚ`; `round(x, 2)`
  is `roundTo2` (round half to even at two decimals, as Python rounds).
* `Optional[T]` is `Option T`; an attribute access that would raise
  `AttributeError` on `None` (as `exp.title.lower()` does when `title`
  is `None`) makes the embedded function return `none`, so fallible
  computations live in `Option`.
* The external cosine-similarity routine (sklearn) and the embedding
  provider are opaque collaborators: they enter as function parameters
  `cos : List ℚ → List ℚ → ℚ` and `embedP / embedJ` returning
  `Option (List ℚ)` (`none` models the provider signalling
  unavailability).
-/

namespace JobRec

/-- A Python string, modelled as its list of characters. -/
abbrev Str := List Char

/-- `str.lower()`, character-wise. -/
def lowerStr (s : Str) : Str := s.map Char.toLower

/-- Helper for `splitWs`: accumulates the current word (reversed). -/
def splitWsAux : List Char → List Char → List Str
  | [], acc => if acc.isEmpty then [] else [acc.reverse]
  | c :: rest, acc =>
    if c.isWhitespace then
      if acc.isEmpty then splitWsAux rest []
      else acc.reverse :: splitWsAux rest []
    else splitWsAux rest (c :: acc)

/-- `str.split()` with no separator: split on whitespace runs, no empty words. -/
def splitWs (s : Str) : List Str := splitWsAux s []

/-- Work experience entry (`backend/models/user.py`, class `Experience`).
All four fields are `Optional[str]` defaulting to `None`. -/
structure Experience where
  title : Option Str
  company : Option Str
  duration : Option Str
  description : Option Str
deriving DecidableEq

/-- Education entry (`backend/models/user.py`, class `Education`). -/
structure Education where
  degree : Option Str
  institution : Option Str
  year : Option Str
  field : Option Str
deriving DecidableEq

/-- User profile (`backend/models/user.py`, class `UserProfile`). -/
structure UserProfile where
  id : Option Int
  name : Str
  email : Option Str
  phone : Option Str
  skills : List Str
  experience : List Experience
  education : List Education
  desired_job_titles : List Str
  summary : Option Str
  location : Option Str
deriving DecidableEq

/-- Job listing (`backend/models/job.py`, class `JobListing`). -/
structure JobListing where
  id : Option Str
  title : Str
  company : Str
  description : Str
  location : Str
  skills : List Str
  remote : Bool
  salary_min : Option ℚ
  salary_max : Option ℚ
  url : Option Str
  source : Str
  posted_date : Option Str
deriving DecidableEq

/-- Search filters (`backend/models/job.py`, class `JobSearchFilters`). -/
structure JobSearchFilters where
  location : Option Str
  remote_only : Bool
  min_salary : Option ℚ
  max_salary : Option ℚ
  keywords : Option Str
deriving DecidableEq

/-- Match explanation (`backend/models/job.py`, class `MatchExplanation`). -/
structure MatchExplanation where
  overall_score : ℚ
  title_score : ℚ
  skills_score : ℚ
  experience_score : ℚ
  embedding_score : ℚ
  matched_skills : List Str
  missing_skills : List Str
  explanation : Str
deriving DecidableEq

/-- Job with match information (`backend/models/job.py`, class `JobMatch`). -/
structure JobMatch where
  job : JobListing
  match_score : ℚ
  explanation : MatchExplanation
deriving DecidableEq

/-- Round a rational to the nearest integer, ties to even
(the rounding Python `round` and `format(x, ".0f")` perform). -/
def rhe (q : ℚ) : ℤ :=
  let f := ⌊q⌋
  let r := q - f
  if r < 1/2 then f
  else if 1/2 < r then f + 1
  else if f % 2 = 0 then f else f + 1

/-- Python `round(x, 2)`: round to two decimal places, ties to even. -/
def roundTo2 (q : ℚ) : ℚ := (rhe (100 * q) : ℚ) / 100

/-- The configured component weights (`RecommendationService.__init__`). -/
def wTitle : ℚ := 0.25
def wSkills : ℚ := 0.40
def wExperience : ℚ := 0.15
def wEmbedding : ℚ := 0.20

/-- One iteration block of the `for desired_title in ...` loop of
`_calculate_title_match`, for a single desired title against the
lower-cased job title: `some score` when a branch beyond the default
fires (exact, substring either direction, word overlap), `none` when
this desired title produces no match at all. -/
def titleBranchScore (d jt : Str) : Option ℚ :=
  let dl := lowerStr d
  if dl = jt then some 100
  else if dl <:+: jt ∨ jt <:+: dl then some 80
  else
    let dw := (splitWs dl).toFinset
    let jw := (splitWs jt).toFinset
    let ov := dw ∩ jw
    if ov ≠ ∅ then some (60 * ((ov.card : ℚ) / (max dw.card jw.card : ℕ)))
    else none

/-- The `for` loop of `_calculate_title_match`: return the first
matching desired title score, else the default 20. -/
def titleLoop (jt : Str) : List Str → ℚ
  | [] => 20
  | d :: rest =>
    match titleBranchScore d jt with
    | some s => s
    | none => titleLoop jt rest

/-- `RecommendationService._calculate_title_match`. -/
def calcTitleMatch (p : UserProfile) (j : JobListing) : ℚ :=
  if p.desired_job_titles = [] then 50
  else titleLoop (lowerStr j.title) p.desired_job_titles

/-- `RecommendationService._calculate_skills_match`: returns
`(score, matched_skills, missing_skills)`. -/
def calcSkillsMatch (p : UserProfile) (j : JobListing) : ℚ × List Str × List Str :=
  if j.skills = [] then (50, [], [])
  else
    let userL := (p.skills.map lowerStr).toFinset
    let jobL := (j.skills.map lowerStr).toFinset
    let matched := userL ∩ jobL
    let missing := jobL \ userL
    let matched_skills := j.skills.filter (fun s => lowerStr s ∈ matched)
    let missing_skills := j.skills.filter (fun s => lowerStr s ∈ missing)
    let score : ℚ := if jobL.card = 0 then 50 else ((matched.card : ℚ) / jobL.card) * 100
    (score, matched_skills, missing_skills)

/-- The `for exp in user_profile.experience` loop of
`_calculate_experience_match`: `some true` when some entry (checked in
order) has a title sharing a word with the job title, `some false` when
none does, and `none` when an entry with `title = None` is reached
first — there `exp.title.lower()` raises `AttributeError`. -/
def expTitleBonusLoop (jw : Finset Str) : List Experience → Option Bool
  | [] => some false
  | e :: rest =>
    match e.title with
    | none => none
    | some t =>
      let ew := (splitWs (lowerStr t)).toFinset
      if jw ∩ ew ≠ ∅ then some true
      else expTitleBonusLoop jw rest

/-- `RecommendationService._calculate_experience_match`.  `none`
models the `AttributeError` raised when an experience entry has
`title = None` (reached before any earlier entry matched). -/
def calcExperienceMatch (p : UserProfile) (j : JobListing) : Option ℚ :=
  if p.experience = [] then some 30
  else
    let cnt := p.experience.length
    let base : ℚ := if cnt ≥ 3 then 50 + 30 else if cnt ≥ 2 then 50 + 20 else 50 + 10
    let jw := (splitWs (lowerStr j.title)).toFinset
    match expTitleBonusLoop jw p.experience with
    | none => none
    | some b => some (min (if b then base + 10 else base) 100)

/-- `RecommendationService._calculate_embedding_similarity`, with the
external sklearn `cosine_similarity` as the opaque parameter `cos`:
remap the similarity from `[-1, 1]` to `[0, 100]`. -/
def calcEmbeddingSimilarity (cos : List ℚ → List ℚ → ℚ) (u v : List ℚ) : ℚ :=
  (cos u v + 1) / 2 * 100

/-- Decimal rendering of a natural number. -/
def natStr (n : ℕ) : Str := (toString n).data

/-- Decimal rendering of an integer, as Python prints it. -/
def intStr (n : ℤ) : Str := (toString n).data

/-- Python format spec `:.0f`: round to an integer (ties to even) and print. -/
def fmtF0 (q : ℚ) : Str := intStr (rhe q)

/-- The quality label chosen by `_generate_explanation`. -/
def qualityLabel (overall : ℚ) : Str :=
  if overall ≥ 80 then "Excellent".data
  else if overall ≥ 60 then "Good".data
  else if overall ≥ 40 then "Fair".data
  else "Limited".data

/-- `RecommendationService._generate_explanation`.  The Python method
also receives `user_profile` and `job` but reads neither, so they are
omitted here. -/
def generateExplanation (overall_score title_score skills_score experience_score
    embedding_score : ℚ) (matched_skills missing_skills : List Str)
    (embedding_available : Bool) : MatchExplanation :=
  let quality := qualityLabel overall_score
  let p0 := quality ++ " match (".data ++ fmtF0 overall_score ++ "%).".data
  let p1 :=
    if title_score ≥ 70 then "Job title aligns well with your desired roles.".data
    else if title_score ≥ 40 then "Job title partially matches your interests.".data
    else "Job title differs from your stated preferences.".data
  let parts := [p0, p1]
  let parts :=
    if matched_skills.isEmpty then parts
    else parts ++ ["You have ".data ++ natStr matched_skills.length ++
      " of the required skills.".data]
  let parts :=
    if !missing_skills.isEmpty ∧ missing_skills.length ≤ 3 then
      parts ++ ["Consider developing: ".data ++
        List.intercalate ", ".data (missing_skills.take 3) ++ ".".data]
    else if !missing_skills.isEmpty then
      parts ++ ["You may need to develop ".data ++ natStr missing_skills.length ++
        " additional skills.".data]
    else parts
  let parts :=
    if embedding_available then
      if embedding_score ≥ 70 then
        parts ++ ["Strong semantic match between your profile and job description.".data]
      else parts
    else
      parts ++
        ["Deep AI Match (Embeddings) currently unavailable, falling back to basic matching.".data]
  { overall_score := roundTo2 overall_score
    title_score := roundTo2 title_score
    skills_score := roundTo2 skills_score
    experience_score := roundTo2 experience_score
    embedding_score := roundTo2 embedding_score
    matched_skills := matched_skills
    missing_skills := missing_skills
    explanation := List.intercalate " ".data parts }

/-- `RecommendationService._calculate_match`: compute the four
sub-scores, blend them (renormalising over the three non-embedding
weights when either embedding vector is unavailable), and build the
`JobMatch`.  `none` models the `AttributeError` escaping from
`_calculate_experience_match`. -/
def calcMatch (cos : List ℚ → List ℚ → ℚ) (p : UserProfile) (j : JobListing)
    (uemb jemb : Option (List ℚ)) : Option JobMatch :=
  let title_score := calcTitleMatch p j
  let sk := calcSkillsMatch p j
  let skills_score := sk.1
  let matched_skills := sk.2.1
  let missing_skills := sk.2.2
  match calcExperienceMatch p j with
  | none => none
  | some experience_score =>
    match uemb, jemb with
    | some u, some v =>
      let embedding_score := calcEmbeddingSimilarity cos u v
      let overall_score :=
        wTitle * title_score + wSkills * skills_score +
        wExperience * experience_score + wEmbedding * embedding_score
      some { job := j
             match_score := roundTo2 overall_score
             explanation := generateExplanation overall_score title_score skills_score
               experience_score embedding_score matched_skills missing_skills true }
    | _, _ =>
      let embedding_score : ℚ := 0
      let overall_score :=
        (wTitle * title_score + wSkills * skills_score + wExperience * experience_score) /
          (wTitle + wSkills + wExperience)
      some { job := j
             match_score := roundTo2 overall_score
             explanation := generateExplanation overall_score title_score skills_score
               experience_score embedding_score matched_skills missing_skills false }

/-- `RecommendationService._apply_filters`.  Each stage mirrors the
Python truthiness tests: an absent or empty `location`/`keywords`
string skips its stage, and the salary stages test
`job.salary_max and job.salary_max >= filters.min_salary` (resp.
`salary_min`/`<=`), so a present bound equal to `0` is falsy and the
job is dropped. -/
def applyFilters (jobs : List JobListing) (filters : Option JobSearchFilters) :
    List JobListing :=
  match filters with
  | none => jobs
  | some f =>
    let l1 := match f.location with
      | some loc =>
        if loc.isEmpty then jobs
        else jobs.filter (fun j => decide (lowerStr loc <:+: lowerStr j.location))
      | none => jobs
    let l2 := if f.remote_only then l1.filter (fun j => j.remote) else l1
    let l3 := match f.min_salary with
      | some ms => l2.filter (fun j =>
          match j.salary_max with
          | some sm => decide (¬ sm = 0 ∧ ms ≤ sm)
          | none => false)
      | none => l2
    let l4 := match f.max_salary with
      | some mx => l3.filter (fun j =>
          match j.salary_min with
          | some sm => decide (¬ sm = 0 ∧ sm ≤ mx)
          | none => false)
      | none => l3
    let l5 := match f.keywords with
      | some kw =>
        if kw.isEmpty then l4
        else l4.filter (fun j =>
          decide (lowerStr kw <:+: lowerStr j.title) ||
          decide (lowerStr kw <:+: lowerStr j.description))
      | none => l4
    l5

/-- The embed-and-score body of `rank_jobs` after filtering: embed the
profile once (`embedP`), embed each surviving job (`embedJ`), and run
`_calculate_match` on each job in the filtered order. -/
def scoreJobs (cos : List ℚ → List ℚ → ℚ)
    (embedP : UserProfile → Option (List ℚ)) (embedJ : JobListing → Option (List ℚ))
    (p : UserProfile) (filtered : List JobListing) : Option (List JobMatch) :=
  let uemb := embedP p
  filtered.mapM (fun job => calcMatch cos p job uemb (embedJ job))

/-- The comparison realising Python `list.sort(key=match_score,
reverse=True)`: a stable sort descending by `match_score`. -/
def jobMatchGe (a b : JobMatch) : Bool := decide (b.match_score ≤ a.match_score)

/-- `RecommendationService.rank_jobs`: empty input or empty filtered
list returns `[]`; otherwise score the filtered jobs and stably sort
by `match_score` descending. -/
def rank_jobs (cos : List ℚ → List ℚ → ℚ)
    (embedP : UserProfile → Option (List ℚ)) (embedJ : JobListing → Option (List ℚ))
    (p : UserProfile) (jobs : List JobListing) (filters : Option JobSearchFilters) :
    Option (List JobMatch) :=
  if jobs = [] then some []
  else
    let filtered := applyFilters jobs filters
    if filtered = [] then some []
    else
      (scoreJobs cos embedP embedJ p filtered).map (fun ms => ms.mergeSort jobMatchGe)

/-- For one experience entry: its title shares a whitespace-split word
(case-insensitively) with the given job-title word set.  Statement
vocabulary for the experience bonus. -/
def sharesTitleWord (jw : Finset Str) (e : Experience) : Bool :=
  match e.title with
  | none => false
  | some t => jw ∩ (splitWs (lowerStr t)).toFinset ≠ ∅

/-- The experience sub-score as the spec describes it (30 for no
experience; else 50 plus a count bonus of 30/20/10, plus a one-time
bonus of 10 when some entry title shares a word with the job title,
capped at 100).  Used to state the refinement of the claim about
`_calculate_experience_match`. -/
def expScoreSpec (p : UserProfile) (j : JobListing) : ℚ :=
  if p.experience = [] then 30
  else
    let cnt := p.experience.length
    let base : ℚ := 50 + (if cnt ≥ 3 then 30 else if cnt ≥ 2 then 20 else 10)
    let jw := (splitWs (lowerStr j.title)).toFinset
    let bonus : ℚ := if p.experience.any (fun e => sharesTitleWord jw e) then 10 else 0
    min (base + bonus) 100

/-! Concrete instances used by counterexamples and witnesses. -/

/-- Builder for a `UserProfile` whose remaining fields are defaulted. -/
def mkProfile (skills : List Str) (exps : List Experience) (dts : List Str) : UserProfile :=
  { id := none, name := [], email := none, phone := none, skills := skills,
    experience := exps, education := [], desired_job_titles := dts,
    summary := none, location := none }

/-- Builder for a `JobListing` whose remaining fields are defaulted. -/
def mkJob (title : Str) (skills : List Str) : JobListing :=
  { id := none, title := title, company := [], description := [], location := [],
    skills := skills, remote := false, salary_min := none, salary_max := none,
    url := none, source := [], posted_date := none }

/-- A constant external cosine-similarity function. -/
def cosZ : List ℚ → List ℚ → ℚ := fun _ _ => 0

/-- An embedding provider that signals unavailability for profiles. -/
def embNoneP : UserProfile → Option (List ℚ) := fun _ => none

/-- An embedding provider that signals unavailability for jobs. -/
def embNoneJ : JobListing → Option (List ℚ) := fun _ => none

/-- Placeholder `JobMatch` used only as the default of `Option.getD`. -/
def dummyMatch : JobMatch where
  job := mkJob [] []
  match_score := 0
  explanation :=
    { overall_score := 0
      title_score := 0
      skills_score := 0
      experience_score := 0
      embedding_score := 0
      matched_skills := []
      missing_skills := []
      explanation := [] }

/-- Profile with one experience entry whose `title` is `None` — legal
per the `Experience` model, crashes `_calculate_experience_match`. -/
def pC3 : UserProfile := mkProfile [] [⟨none, none, none, none⟩] []

/-- An arbitrary job for the experience-crash evaluation. -/
def jC3 : JobListing := mkJob "Engineer".data []

/-- Profile whose second desired title is an exact match for `jC5`,
while the first desired title already matches by substring. -/
def pC5 : UserProfile :=
  mkProfile [] [] ["software engineer".data, "engineer".data]

/-- Job titled Engineer. -/
def jC5 : JobListing := mkJob "Engineer".data []

/-- Profile with a single desired title for the exact-match witness. -/
def pW5 : UserProfile := mkProfile [] [] ["Engineer".data]

/-- Job titled engineer (case differs from the desired title). -/
def jW5 : JobListing := mkJob "engineer".data []

/-- Filters with only `min_salary` set. -/
def fMin (ms : ℚ) : JobSearchFilters := ⟨none, false, some ms, none, none⟩

/-- Filters with only `max_salary` set. -/
def fMax (mx : ℚ) : JobSearchFilters := ⟨none, false, none, some mx, none⟩

/-- Filters with only `min_salary = 0` set. -/
def fC6 : JobSearchFilters := fMin 0

/-- Job whose `salary_max` is present and equal to 0. -/
def jC6 : JobListing := { mkJob "Backend Developer".data [] with salary_max := some 0 }

/-- Job whose `salary_max` is present and positive. -/
def jW6 : JobListing := { mkJob "Platform Engineer".data [] with salary_max := some 50000 }

/-- Profile and job for the skills-score witness (the end-to-end
scenario of the spec: user holds 2 of the job's 3 skills). -/
def pW7 : UserProfile :=
  mkProfile ["Python".data, "FastAPI".data, "React".data, "PostgreSQL".data] [] []

/-- Job requiring three skills, two of which `pW7` has. -/
def jW7 : JobListing :=
  mkJob "Senior Software Engineer".data
    ["Python".data, "FastAPI".data, "Docker".data]

/-- Profile with an experience entry whose `title` is `None`, for the
experience-formula counterexample. -/
def pC8 : UserProfile := mkProfile [] [⟨none, none, none, none⟩] []

/-- An arbitrary job for the experience-formula counterexample. -/
def jC8 : JobListing := mkJob "Data Scientist".data []

/-- Profile with two titled experience entries, first sharing a word
with the job title of `jW8`. -/
def pW8 : UserProfile :=
  mkProfile []
    [⟨some "Software Engineer".data, none, none, none⟩,
     ⟨some "Cook".data, none, none, none⟩] []

/-- Job whose title shares the word engineer with `pW8`. -/
def jW8 : JobListing := mkJob "Senior Engineer Role".data []

/-- Desired title sharing exactly one word with the four-word job
title `jC10`, without any substring relation. -/
def pC10 : UserProfile := mkProfile [] [] ["engineer manager".data]

/-- Desired title with no overlap with `jC10` at all. -/
def pC10b : UserProfile := mkProfile [] [] ["accountant".data]

/-- Four-word job title. -/
def jC10 : JobListing := mkJob "senior engineer lead role".data []

/-- Empty profile used by the blend witness. -/
def pW1 : UserProfile := mkProfile [] [] []

/-- Job used by the blend witness. -/
def jW1 : JobListing := mkJob "Engineer".data []

/-- The match produced for `pW1`/`jW1` with embeddings unavailable. -/
def mW1 : JobMatch := (calcMatch cosZ pW1 jW1 none none).getD dummyMatch

/-- Profile used by the ranking witness. -/
def pW2 : UserProfile := mkProfile [] [] []

/-- Single-job list used by the ranking witness. -/
def jobsW2 : List JobListing := [mkJob "Backend Developer".data []]

/-- The ranking produced for `pW2`/`jobsW2` with no filters and
unavailable embeddings. -/
def resW2 : List JobMatch :=
  (rank_jobs cosZ embNoneP embNoneJ pW2 jobsW2 none).getD []

/-- The unsorted scored list behind `resW2`. -/
def msW2 : List JobMatch :=
  (scoreJobs cosZ embNoneP embNoneJ pW2 (applyFilters jobsW2 none)).getD []

/-- Profile used by the skills-partition witness. -/
def pW4 : UserProfile := mkProfile ["python".data] [] []

/-- Job used by the skills-partition witness. -/
def jW4 : JobListing := mkJob "Engineer".data ["Python".data, "Go".data]

/-- Profile used by the score-range witness. -/
def pW9 : UserProfile := mkProfile ["go".data] [] ["dev".data]

/-- Job used by the score-range witness. -/
def jW9 : JobListing := mkJob "dev".data ["go".data]

/-- The match produced for `pW9`/`jW9` with both vectors available. -/
def mW9 : JobMatch := (calcMatch cosZ pW9 jW9 (some [1]) (some [1])).getD dummyMatch

/-! Shared lemmas about the embedded operations. -/

theorem rhe_nonneg {q : ℚ} (h : 0 ≤ q) : 0 ≤ rhe q := by
  have hf : (0:ℤ) ≤ ⌊q⌋ := Int.floor_nonneg.mpr h
  unfold rhe
  dsimp only
  split_ifs <;> omega

theorem rhe_le_int {q : ℚ} {n : ℤ} (h : q ≤ n) : rhe q ≤ n := by
  have hf : ⌊q⌋ ≤ n := by
    have h2 := Int.floor_le_floor h
    simpa using h2
  have hfl : (⌊q⌋ : ℚ) ≤ q := Int.floor_le q
  unfold rhe
  dsimp only
  split_ifs with h1 h2 h3
  · exact hf
  · have hq : (⌊q⌋:ℚ) + 1/2 < q := by linarith
    have hlt : (⌊q⌋:ℚ) < (n:ℚ) := by linarith
    have : ⌊q⌋ < n := by exact_mod_cast hlt
    omega
  · exact hf
  · have hq : (⌊q⌋:ℚ) + 1/2 ≤ q := by linarith
    have hlt : (⌊q⌋:ℚ) < (n:ℚ) := by linarith
    have : ⌊q⌋ < n := by exact_mod_cast hlt
    omega

theorem roundTo2_nonneg {q : ℚ} (h : 0 ≤ q) : 0 ≤ roundTo2 q := by
  unfold roundTo2
  have h1 : (0:ℤ) ≤ rhe (100 * q) := rhe_nonneg (by linarith)
  have h2 : (0:ℚ) ≤ (rhe (100 * q) : ℚ) := by exact_mod_cast h1
  positivity

theorem roundTo2_le_100 {q : ℚ} (h : q ≤ 100) : roundTo2 q ≤ 100 := by
  unfold roundTo2
  have h1 : rhe (100 * q) ≤ (10000:ℤ) := rhe_le_int (by push_cast; linarith)
  rw [div_le_iff₀ (by norm_num : (0:ℚ) < 100)]
  calc (rhe (100 * q) : ℚ) ≤ ((10000:ℤ) : ℚ) := by exact_mod_cast h1
  _ = 100 * 100 := by norm_num

theorem roundTo2_bounds {q : ℚ} (h0 : 0 ≤ q) (h1 : q ≤ 100) :
    0 ≤ roundTo2 q ∧ roundTo2 q ≤ 100 :=
  ⟨roundTo2_nonneg h0, roundTo2_le_100 h1⟩

theorem roundTo2_zero : roundTo2 (0:ℚ) = 0 := by
  have h : (100:ℚ) * 0 = 0 := by norm_num
  unfold roundTo2
  rw [h]
  have h2 : rhe (0:ℚ) = 0 := by
    unfold rhe
    norm_num
  rw [h2]
  norm_num

theorem titleBranchScore_bounds {d jt : Str} {s : ℚ}
    (h : titleBranchScore d jt = some s) : 0 ≤ s ∧ s ≤ 100 := by
  unfold titleBranchScore at h
  dsimp only at h
  split_ifs at h with h1 h2 h3
  · injection h with h; subst h; norm_num
  · injection h with h; subst h; norm_num
  · injection h with h; subst h
    have hle : ((splitWs (lowerStr d)).toFinset ∩ (splitWs jt).toFinset).card ≤
        max (splitWs (lowerStr d)).toFinset.card (splitWs jt).toFinset.card :=
      le_trans (Finset.card_le_card Finset.inter_subset_left) (le_max_left _ _)
    have hcpos : 0 < ((splitWs (lowerStr d)).toFinset ∩ (splitWs jt).toFinset).card :=
      Finset.card_pos.mpr (Finset.nonempty_iff_ne_empty.mpr h3)
    generalize hgc : ((splitWs (lowerStr d)).toFinset ∩ (splitWs jt).toFinset).card = c
      at hle hcpos ⊢
    generalize hgM : max (splitWs (lowerStr d)).toFinset.card (splitWs jt).toFinset.card = M
      at hle ⊢
    have hM : (0:ℚ) < (M:ℚ) := by exact_mod_cast lt_of_lt_of_le hcpos hle
    have hd1 : ((c:ℚ)) / (M:ℚ) ≤ 1 := (div_le_one hM).mpr (by exact_mod_cast hle)
    have hd0 : (0:ℚ) ≤ ((c:ℚ)) / (M:ℚ) := by positivity
    constructor
    · linarith
    · linarith

theorem titleLoop_bounds (jt : Str) (ds : List Str) :
    0 ≤ titleLoop jt ds ∧ titleLoop jt ds ≤ 100 := by
  induction ds with
  | nil => norm_num [titleLoop]
  | cons d rest ih =>
    cases hb : titleBranchScore d jt with
    | none => simpa only [titleLoop, hb] using ih
    | some s => simpa only [titleLoop, hb] using titleBranchScore_bounds hb

theorem calcTitleMatch_bounds (p : UserProfile) (j : JobListing) :
    0 ≤ calcTitleMatch p j ∧ calcTitleMatch p j ≤ 100 := by
  unfold calcTitleMatch
  split_ifs
  · norm_num
  · exact titleLoop_bounds _ _

theorem calcSkillsMatch_score_bounds (p : UserProfile) (j : JobListing) :
    0 ≤ (calcSkillsMatch p j).1 ∧ (calcSkillsMatch p j).1 ≤ 100 := by
  unfold calcSkillsMatch
  split_ifs with hj
  · norm_num
  · dsimp only
    split_ifs with hc
    · norm_num
    · set U := (p.skills.map lowerStr).toFinset with hU
      set B := (j.skills.map lowerStr).toFinset with hB
      have hle : (U ∩ B).card ≤ B.card := Finset.card_le_card Finset.inter_subset_right
      have hpos : 0 < B.card := Nat.pos_of_ne_zero hc
      have hpos' : (0:ℚ) < (B.card : ℚ) := by exact_mod_cast hpos
      have hle' : ((U ∩ B).card : ℚ) ≤ (B.card : ℚ) := by exact_mod_cast hle
      have hdiv : ((U ∩ B).card : ℚ) / (B.card : ℚ) ≤ 1 := (div_le_one hpos').mpr hle'
      have hdiv0 : (0:ℚ) ≤ ((U ∩ B).card : ℚ) / (B.card : ℚ) := by positivity
      constructor
      · positivity
      · linarith

theorem calcExperienceMatch_bounds {p : UserProfile} {j : JobListing} {e : ℚ}
    (h : calcExperienceMatch p j = some e) : 0 ≤ e ∧ e ≤ 100 := by
  unfold calcExperienceMatch at h
  split_ifs at h with hpe
  · injection h with h; subst h; norm_num
  · dsimp only at h
    cases hl : expTitleBonusLoop ((splitWs (lowerStr j.title)).toFinset) p.experience with
    | none => rw [hl] at h; exact absurd h (by simp)
    | some b =>
      rw [hl] at h
      injection h with h
      subst h
      constructor
      · apply le_min _ (by norm_num)
        split_ifs <;> norm_num
      · exact min_le_right _ _

theorem embSim_bounds {cos : List ℚ → List ℚ → ℚ} {u v : List ℚ}
    (h0 : -1 ≤ cos u v) (h1 : cos u v ≤ 1) :
    0 ≤ calcEmbeddingSimilarity cos u v ∧ calcEmbeddingSimilarity cos u v ≤ 100 := by
  unfold calcEmbeddingSimilarity
  have h : (cos u v + 1) / 2 * 100 = 50 * cos u v + 50 := by ring
  rw [h]
  constructor <;> linarith

theorem blend3_bounds {t s e : ℚ} (ht0 : 0 ≤ t) (ht1 : t ≤ 100) (hs0 : 0 ≤ s)
    (hs1 : s ≤ 100) (he0 : 0 ≤ e) (he1 : e ≤ 100) :
    0 ≤ (wTitle * t + wSkills * s + wExperience * e) / (wTitle + wSkills + wExperience) ∧
    (wTitle * t + wSkills * s + wExperience * e) / (wTitle + wSkills + wExperience) ≤ 100 := by
  unfold wTitle wSkills wExperience
  constructor
  · apply div_nonneg _ (by norm_num)
    linarith
  · rw [div_le_iff₀ (by norm_num)]
    linarith

theorem blend4_bounds {t s e b : ℚ} (ht0 : 0 ≤ t) (ht1 : t ≤ 100) (hs0 : 0 ≤ s)
    (hs1 : s ≤ 100) (he0 : 0 ≤ e) (he1 : e ≤ 100) (hb0 : 0 ≤ b) (hb1 : b ≤ 100) :
    0 ≤ wTitle * t + wSkills * s + wExperience * e + wEmbedding * b ∧
    wTitle * t + wSkills * s + wExperience * e + wEmbedding * b ≤ 100 := by
  unfold wTitle wSkills wExperience wEmbedding
  constructor <;> linarith

theorem generateExplanation_score_fields (ov t s e b : ℚ) (matched missing : List Str)
    (avail : Bool) :
    (generateExplanation ov t s e b matched missing avail).overall_score = roundTo2 ov ∧
    (generateExplanation ov t s e b matched missing avail).title_score = roundTo2 t ∧
    (generateExplanation ov t s e b matched missing avail).skills_score = roundTo2 s ∧
    (generateExplanation ov t s e b matched missing avail).experience_score = roundTo2 e ∧
    (generateExplanation ov t s e b matched missing avail).embedding_score = roundTo2 b := by
  unfold generateExplanation
  refine ⟨rfl, rfl, rfl, rfl, rfl⟩

theorem applyFilters_nil (filters : Option JobSearchFilters) :
    applyFilters [] filters = [] := by
  cases filters with
  | none => rfl
  | some f =>
    rcases f with ⟨loc, ro, mns, mxs, kw⟩
    rcases loc <;> rcases mns <;> rcases mxs <;> rcases kw <;> rcases ro <;>
      simp [applyFilters]

theorem scoreJobs_nil (cos : List ℚ → List ℚ → ℚ)
    (embedP : UserProfile → Option (List ℚ)) (embedJ : JobListing → Option (List ℚ))
    (p : UserProfile) : scoreJobs cos embedP embedJ p [] = some [] := rfl

theorem jobMatchGe_trans : ∀ (a b c : JobMatch),
    jobMatchGe a b → jobMatchGe b c → jobMatchGe a c := by
  intro a b c hab hbc
  simp only [jobMatchGe, decide_eq_true_eq] at *
  exact le_trans hbc hab

theorem jobMatchGe_total : ∀ (a b : JobMatch), jobMatchGe a b || jobMatchGe b a := by
  intro a b
  simp only [jobMatchGe, Bool.or_eq_true, decide_eq_true_eq]
  exact le_total _ _

theorem expTitleBonusLoop_eq_any {jw : Finset Str} :
    ∀ {l : List Experience}, (∀ e ∈ l, e.title ≠ none) →
      expTitleBonusLoop jw l = some (l.any (fun e => sharesTitleWord jw e)) := by
  intro l
  induction l with
  | nil => intro _; rfl
  | cons e rest ih =>
    intro h
    have he := h e (by simp)
    cases ht : e.title with
    | none => exact absurd ht he
    | some t =>
      have hrest := ih (fun e2 he2 => h e2 (List.mem_cons_of_mem _ he2))
      by_cases hov : jw ∩ (splitWs (lowerStr t)).toFinset ≠ ∅
      · simp [expTitleBonusLoop, ht, hov, sharesTitleWord]
      · simp [expTitleBonusLoop, ht, hov, sharesTitleWord, hrest]

theorem titleBranchScore_of_eq {d jt : Str} (h : lowerStr d = jt) :
    titleBranchScore d jt = some 100 := by
  simp [titleBranchScore, h]

theorem titleLoop_eq_of_prefix_none (jt : Str) :
    ∀ (pre : List Str) (d : Str) (post : List Str),
      (∀ d2 ∈ pre, titleBranchScore d2 jt = none) →
      titleLoop jt (pre ++ d :: post) =
        match titleBranchScore d jt with
        | some s => s
        | none => titleLoop jt post := by
  intro pre
  induction pre with
  | nil => intro d post _; simp [titleLoop]
  | cons d2 pre2 ih =>
    intro d post h
    have h2 := h d2 (by simp)
    simp only [List.cons_append, titleLoop, h2]
    exact ih d post (fun x hx => h x (List.mem_cons_of_mem _ hx))

/-! The claims. -/

/-- Claim C3: every sub-score calculation is claimed total over
well-formed profiles and jobs, including profiles whose `Experience`
entries leave `title` absent.  The code violates this:
`_calculate_experience_match` evaluates `exp.title.lower()` and raises
`AttributeError` for the well-formed profile `pC3` whose single
experience entry has `title = None`; the embedded computation returns
`none` instead of a score. -/
theorem C3_experience_subscore_crashes :
    pC3.experience ≠ [] ∧ (∀ e ∈ pC3.experience, e.title = none) ∧
      calcExperienceMatch pC3 jC3 = none := by
  refine ⟨by decide, by decide, by decide⟩

/-- Claim C10: a desired title that shares one whitespace word with a
four-word job title scores `60 * 1/4 = 15 < 20` through the
word-overlap branch, strictly below the no-match floor 20 that a
wholly unrelated desired title receives. -/
theorem C10_word_overlap_below_floor :
    calcTitleMatch pC10 jC10 = 15 ∧ (15:ℚ) < 20 ∧ calcTitleMatch pC10b jC10 = 20 := by
  refine ⟨?_, by norm_num, by decide⟩
  have hb : titleBranchScore "engineer manager".data (lowerStr jC10.title) = some 15 := by
    unfold titleBranchScore
    dsimp only
    rw [if_neg (by decide), if_neg (by decide), if_pos (by decide)]
    have h1 : ((splitWs (lowerStr "engineer manager".data)).toFinset ∩
        (splitWs (lowerStr jC10.title)).toFinset).card = 1 := by decide
    have h2 : max (splitWs (lowerStr "engineer manager".data)).toFinset.card
        (splitWs (lowerStr jC10.title)).toFinset.card = 4 := by decide
    rw [h1, h2]
    norm_num
  show calcTitleMatch pC10 jC10 = 15
  unfold calcTitleMatch
  rw [if_neg (by decide)]
  show titleLoop (lowerStr jC10.title) ["engineer manager".data] = 15
  simp only [titleLoop, hb]

/-- Claim C5, counterexample: the claim asserts that whenever some
desired title equals the job title case-insensitively the title
sub-score is 100.  For `pC5` the second desired title equals `jC5`'s
title case-insensitively, yet the first desired title already matches
by substring and the loop short-circuits, returning 80. -/
theorem C5_counterexample_exact_not_first :
    ("engineer".data ∈ pC5.desired_job_titles) ∧
      lowerStr "engineer".data = lowerStr jC5.title ∧
      calcTitleMatch pC5 jC5 = 80 ∧ calcTitleMatch pC5 jC5 ≠ 100 := by
  refine ⟨by decide, by decide, by decide, by decide⟩

/-- Claim C6, counterexample: the claim asserts a job whose salary
bound is present and equal to 0 is kept when the comparison holds.
With `min_salary = 0` and `salary_max = 0` the comparison `0 ≥ 0`
holds, yet Python truthiness (`job.salary_max and ...`) drops the
job. -/
theorem C6_counterexample_zero_salary :
    jC6.salary_max = some 0 ∧ fC6.min_salary = some 0 ∧ ((0:ℚ) ≤ 0) ∧
      applyFilters [jC6] (some fC6) = [] := by
  refine ⟨rfl, rfl, le_refl 0, by decide⟩

/-- Claim C8, counterexample: the claim gives a total formula for the
experience sub-score over every user profile, but a profile with a
non-empty experience list whose entry has `title = None` makes
`_calculate_experience_match` raise instead of returning the formula
value (the embedding returns `none`). -/
theorem C8_counterexample_none_title :
    pC8.experience ≠ [] ∧ calcExperienceMatch pC8 jC8 = none := by
  refine ⟨by decide, by decide⟩

/-- Claim C1: when either embedding vector is unavailable, the match
score is the three-weight blend
`(0.25*title + 0.40*skills + 0.15*experience) / (0.25 + 0.40 + 0.15)`
rounded to 2 decimals and the explanation reports `embedding_score`
as 0; when both vectors are available, the score is the four-weight
sum with `0.20 * embedding`, rounded to 2 decimals. -/
theorem C1_score_blend (cos : List ℚ → List ℚ → ℚ) (p : UserProfile) (j : JobListing)
    (uemb jemb : Option (List ℚ)) (e : ℚ) (m : JobMatch)
    (he : calcExperienceMatch p j = some e)
    (hm : calcMatch cos p j uemb jemb = some m) :
    ((uemb = none ∨ jemb = none) →
      m.match_score =
        roundTo2 (((0.25:ℚ) * calcTitleMatch p j + 0.40 * (calcSkillsMatch p j).1 +
          0.15 * e) / (0.25 + 0.40 + 0.15)) ∧
      m.explanation.embedding_score = 0) ∧
    (∀ u v, uemb = some u → jemb = some v →
      m.match_score =
        roundTo2 ((0.25:ℚ) * calcTitleMatch p j + 0.40 * (calcSkillsMatch p j).1 +
          0.15 * e + 0.20 * calcEmbeddingSimilarity cos u v)) := by
  constructor
  · rintro (rfl | rfl)
    · simp only [calcMatch, he] at hm
      injection hm with hm
      subst hm
      constructor
      · simp [wTitle, wSkills, wExperience]
      · simp [generateExplanation, roundTo2_zero]
    · cases uemb with
      | none =>
        simp only [calcMatch, he] at hm
        injection hm with hm
        subst hm
        constructor
        · simp [wTitle, wSkills, wExperience]
        · simp [generateExplanation, roundTo2_zero]
      | some u =>
        simp only [calcMatch, he] at hm
        injection hm with hm
        subst hm
        constructor
        · simp [wTitle, wSkills, wExperience]
        · simp [generateExplanation, roundTo2_zero]
  · intro u v hu hv
    subst hu
    subst hv
    simp only [calcMatch, he] at hm
    injection hm with hm
    subst hm
    simp [wTitle, wSkills, wExperience, wEmbedding]

/-- Witness for C1 at a concrete profile and job with both embedding
vectors unavailable. -/
theorem C1_score_blend_witness :
    calcExperienceMatch pW1 jW1 = some 30 ∧
    calcMatch cosZ pW1 jW1 none none = some mW1 ∧
    mW1.match_score =
      roundTo2 (((0.25:ℚ) * calcTitleMatch pW1 jW1 + 0.40 * (calcSkillsMatch pW1 jW1).1 +
        0.15 * 30) / (0.25 + 0.40 + 0.15)) ∧
    mW1.explanation.embedding_score = 0 := by
  have he : calcExperienceMatch pW1 jW1 = some 30 := rfl
  have hm : calcMatch cosZ pW1 jW1 none none = some mW1 := rfl
  obtain ⟨h1, h2⟩ := (C1_score_blend cosZ pW1 jW1 none none 30 mW1 he hm).1 (Or.inl rfl)
  exact ⟨he, hm, h1, h2⟩

/-- Claim C2: `rank_jobs` returns the matches sorted by `match_score`
descending, the result is a permutation of the scored filtered list,
and two matches with equal score keep the relative order their jobs
had in the filtered input sequence (stability). -/
theorem C2_rank_sorted_stable (cos : List ℚ → List ℚ → ℚ)
    (embedP : UserProfile → Option (List ℚ)) (embedJ : JobListing → Option (List ℚ))
    (p : UserProfile) (jobs : List JobListing) (filters : Option JobSearchFilters)
    (res : List JobMatch)
    (h : rank_jobs cos embedP embedJ p jobs filters = some res) :
    res.Pairwise (fun a b => b.match_score ≤ a.match_score) ∧
    ∀ ms, scoreJobs cos embedP embedJ p (applyFilters jobs filters) = some ms →
      res.Perm ms ∧
      ∀ a b, [a, b].Sublist ms → a.match_score = b.match_score → [a, b].Sublist res := by
  by_cases hj : jobs = []
  · subst hj
    simp only [rank_jobs, if_pos rfl] at h
    injection h with h
    subst h
    refine ⟨List.Pairwise.nil, ?_⟩
    intro ms hms
    rw [applyFilters_nil, scoreJobs_nil] at hms
    injection hms with hms
    subst hms
    exact ⟨List.Perm.nil, fun a b hs _ => absurd (List.sublist_nil.mp hs) (by simp)⟩
  · by_cases hf : applyFilters jobs filters = []
    · simp only [rank_jobs, if_neg hj, hf, if_pos rfl] at h
      injection h with h
      subst h
      refine ⟨List.Pairwise.nil, ?_⟩
      intro ms hms
      rw [hf, scoreJobs_nil] at hms
      injection hms with hms
      subst hms
      exact ⟨List.Perm.nil, fun a b hs _ => absurd (List.sublist_nil.mp hs) (by simp)⟩
    · simp only [rank_jobs, if_neg hj, if_neg hf] at h
      obtain ⟨ms0, hms0, hres⟩ := Option.map_eq_some'.mp h
      subst hres
      constructor
      · have hs := List.sorted_mergeSort jobMatchGe_trans jobMatchGe_total ms0
        exact hs.imp (fun hab => by
          simpa only [jobMatchGe, decide_eq_true_eq] using hab)
      · intro ms hms
        rw [hms0] at hms
        injection hms with hms
        subst hms
        refine ⟨List.mergeSort_perm ms0 jobMatchGe, ?_⟩
        intro a b hsub heq
        exact List.pair_sublist_mergeSort jobMatchGe_trans jobMatchGe_total
          (by simp [jobMatchGe, heq]) hsub

/-- Witness for C2 at a concrete ranking call (one job, no filters,
embeddings unavailable). -/
theorem C2_rank_sorted_stable_witness :
    rank_jobs cosZ embNoneP embNoneJ pW2 jobsW2 none = some resW2 ∧
    resW2.Pairwise (fun a b => b.match_score ≤ a.match_score) ∧
    resW2.Perm msW2 := by
  have h : rank_jobs cosZ embNoneP embNoneJ pW2 jobsW2 none = some resW2 := rfl
  have hms : scoreJobs cosZ embNoneP embNoneJ pW2 (applyFilters jobsW2 none) = some msW2 :=
    rfl
  obtain ⟨h1, h2⟩ := C2_rank_sorted_stable cosZ embNoneP embNoneJ pW2 jobsW2 none resW2 h
  exact ⟨h, h1, (h2 msW2 hms).1⟩

/-- Claim C4: `matched_skills` and `missing_skills` together cover
`job.skills` up to case-insensitive deduplication, are
case-insensitively disjoint, and each preserves the job's original
skill order and casing (each is a sublist of `job.skills`); both are
empty when `job.skills` is empty. -/
theorem C4_skills_partition (p : UserProfile) (j : JobListing) :
    ((((calcSkillsMatch p j).2.1 ++ (calcSkillsMatch p j).2.2).map lowerStr).toFinset
        = (j.skills.map lowerStr).toFinset) ∧
    (∀ a ∈ (calcSkillsMatch p j).2.1, ∀ b ∈ (calcSkillsMatch p j).2.2,
        lowerStr a ≠ lowerStr b) ∧
    (calcSkillsMatch p j).2.1.Sublist j.skills ∧
    (calcSkillsMatch p j).2.2.Sublist j.skills ∧
    (j.skills = [] → (calcSkillsMatch p j).2.1 = [] ∧ (calcSkillsMatch p j).2.2 = []) := by
  by_cases hj : j.skills = []
  · simp [calcSkillsMatch, hj]
  · have hms : (calcSkillsMatch p j).2.1 =
        j.skills.filter (fun s => lowerStr s ∈
          (p.skills.map lowerStr).toFinset ∩ (j.skills.map lowerStr).toFinset) := by
      simp [calcSkillsMatch, hj]
    have hmis : (calcSkillsMatch p j).2.2 =
        j.skills.filter (fun s => lowerStr s ∈
          (j.skills.map lowerStr).toFinset \ (p.skills.map lowerStr).toFinset) := by
      simp [calcSkillsMatch, hj]
    refine ⟨?_, ?_, ?_, ?_, fun h => absurd h hj⟩
    · rw [hms, hmis]
      ext x
      simp only [List.mem_toFinset, List.mem_map, List.mem_append, List.mem_filter,
        decide_eq_true_eq, Finset.mem_inter, Finset.mem_sdiff]
      constructor
      · rintro ⟨s, (⟨hs, -⟩ | ⟨hs, -⟩), rfl⟩ <;> exact ⟨s, hs, rfl⟩
      · rintro ⟨s, hs, rfl⟩
        by_cases hu : ∃ a ∈ p.skills, lowerStr a = lowerStr s
        · exact ⟨s, Or.inl ⟨hs, hu, ⟨s, hs, rfl⟩⟩, rfl⟩
        · exact ⟨s, Or.inr ⟨hs, ⟨s, hs, rfl⟩, hu⟩, rfl⟩
    · intro a ha b hb heq
      rw [hms] at ha
      rw [hmis] at hb
      simp only [List.mem_filter, decide_eq_true_eq, Finset.mem_inter,
        Finset.mem_sdiff] at ha hb
      exact hb.2.2 (heq ▸ ha.2.1)
    · rw [hms]; exact List.filter_sublist _
    · rw [hmis]; exact List.filter_sublist _

/-- Witness for C4 at a concrete profile and job. -/
theorem C4_skills_partition_witness :
    ((((calcSkillsMatch pW4 jW4).2.1 ++ (calcSkillsMatch pW4 jW4).2.2).map lowerStr).toFinset
        = (jW4.skills.map lowerStr).toFinset) ∧
    (calcSkillsMatch pW4 jW4).2.1.Sublist jW4.skills ∧
    (calcSkillsMatch pW4 jW4).2.2.Sublist jW4.skills := by
  obtain ⟨h1, h2, h3, h4, h5⟩ := C4_skills_partition pW4 jW4
  exact ⟨h1, h3, h4⟩

/-- Claim C5, amended: the title sub-score is 50 when
`desired_job_titles` is empty; the loop over desired titles
short-circuits, returning the score of the first desired title (in the
user's listed order) producing an exact, substring, or word-overlap
match; in particular the score is 100 when a desired title equals the
job title case-insensitively and no earlier desired title produces any
match (without that proviso a preceding substring or overlap match
preempts the exact one). -/
theorem C5_title_short_circuit (p : UserProfile) (j : JobListing) :
    (p.desired_job_titles = [] → calcTitleMatch p j = 50) ∧
    (∀ pre d post s, p.desired_job_titles = pre ++ d :: post →
      (∀ d2 ∈ pre, titleBranchScore d2 (lowerStr j.title) = none) →
      titleBranchScore d (lowerStr j.title) = some s →
      calcTitleMatch p j = s) ∧
    (∀ pre d post, p.desired_job_titles = pre ++ d :: post →
      (∀ d2 ∈ pre, titleBranchScore d2 (lowerStr j.title) = none) →
      lowerStr d = lowerStr j.title →
      calcTitleMatch p j = 100) := by
  refine ⟨fun h => by simp [calcTitleMatch, h], ?_, ?_⟩
  · intro pre d post s hdts hpre hd
    have hne : p.desired_job_titles ≠ [] := by simp [hdts]
    rw [calcTitleMatch, if_neg hne, hdts,
      titleLoop_eq_of_prefix_none (lowerStr j.title) pre d post hpre, hd]
  · intro pre d post hdts hpre hd
    have hne : p.desired_job_titles ≠ [] := by simp [hdts]
    rw [calcTitleMatch, if_neg hne, hdts,
      titleLoop_eq_of_prefix_none (lowerStr j.title) pre d post hpre,
      titleBranchScore_of_eq hd]

/-- Witness for C5 at a profile whose single desired title matches the
job title exactly up to case. -/
theorem C5_title_short_circuit_witness : calcTitleMatch pW5 jW5 = 100 :=
  (C5_title_short_circuit pW5 jW5).2.2 [] ("Engineer".data) [] rfl (by simp) (by decide)

/-- Claim C6, amended: with `min_salary` set, filtering keeps exactly
the jobs whose `salary_max` is present, nonzero, and `≥ min_salary`
(a present bound equal to 0 is excluded by Python truthiness even when
the comparison holds); symmetrically with `max_salary` set it keeps
exactly the jobs whose `salary_min` is present, nonzero, and
`≤ max_salary`. -/
theorem C6_salary_filters (jobs : List JobListing) (ms mx : ℚ) :
    (∀ j, j ∈ applyFilters jobs (some (fMin ms)) ↔
      j ∈ jobs ∧ ∃ v, j.salary_max = some v ∧ v ≠ 0 ∧ ms ≤ v) ∧
    (∀ j, j ∈ applyFilters jobs (some (fMax mx)) ↔
      j ∈ jobs ∧ ∃ v, j.salary_min = some v ∧ v ≠ 0 ∧ v ≤ mx) := by
  constructor
  · intro j
    simp only [applyFilters, fMin, Bool.false_eq_true, if_false, List.mem_filter]
    constructor
    · rintro ⟨hj, hcond⟩
      refine ⟨hj, ?_⟩
      cases hsm : j.salary_max with
      | none => rw [hsm] at hcond; exact absurd hcond (by simp)
      | some v =>
        rw [hsm] at hcond
        simp only [decide_eq_true_eq] at hcond
        exact ⟨v, rfl, hcond.1, hcond.2⟩
    · rintro ⟨hj, v, hv, hvne, hvle⟩
      refine ⟨hj, ?_⟩
      rw [hv]
      simp only [decide_eq_true_eq]
      exact ⟨hvne, hvle⟩
  · intro j
    simp only [applyFilters, fMax, Bool.false_eq_true, if_false, List.mem_filter]
    constructor
    · rintro ⟨hj, hcond⟩
      refine ⟨hj, ?_⟩
      cases hsm : j.salary_min with
      | none => rw [hsm] at hcond; exact absurd hcond (by simp)
      | some v =>
        rw [hsm] at hcond
        simp only [decide_eq_true_eq] at hcond
        exact ⟨v, rfl, hcond.1, hcond.2⟩
    · rintro ⟨hj, v, hv, hvne, hvle⟩
      refine ⟨hj, ?_⟩
      rw [hv]
      simp only [decide_eq_true_eq]
      exact ⟨hvne, hvle⟩

/-- Witness for C6: the positive-salary job passes the `min_salary = 0`
filter, the zero-salary job does not. -/
theorem C6_salary_filters_witness :
    jW6 ∈ applyFilters [jW6, jC6] (some fC6) ∧
    jC6 ∉ applyFilters [jW6, jC6] (some fC6) := by
  have h := (C6_salary_filters [jW6, jC6] 0 0).1
  constructor
  · exact (h jW6).mpr ⟨by simp, 50000, rfl, by norm_num, by norm_num⟩
  · intro hmem
    obtain ⟨-, v, hv, hvne, -⟩ := (h jC6).mp hmem
    have hv0 : (some (0:ℚ) : Option ℚ) = some v := hv
    injection hv0 with hv0
    exact hvne hv0.symm

/-- Claim C7: the skills sub-score is 50 with empty lists when the job
declares no skills; otherwise it is `100 * |matched| / |job_skills|`
over the case-insensitive skill sets, so a user with no skills scores
0 against a job with skills. -/
theorem C7_skills_score_formula (p : UserProfile) (j : JobListing) :
    (j.skills = [] → calcSkillsMatch p j = (50, [], [])) ∧
    (j.skills ≠ [] →
      (calcSkillsMatch p j).1 =
        100 * ((((p.skills.map lowerStr).toFinset ∩ (j.skills.map lowerStr).toFinset).card : ℚ) /
          ((j.skills.map lowerStr).toFinset.card : ℚ))) ∧
    (p.skills = [] → j.skills ≠ [] → (calcSkillsMatch p j).1 = 0) := by
  have hcard : j.skills ≠ [] → (j.skills.map lowerStr).toFinset.card ≠ 0 := by
    intro hj hc
    rw [Finset.card_eq_zero, List.toFinset_eq_empty_iff, List.map_eq_nil_iff] at hc
    exact hj hc
  refine ⟨fun hj => by simp [calcSkillsMatch, hj], fun hj => ?_, fun hp hj => ?_⟩
  · simp only [calcSkillsMatch, if_neg hj, if_neg (hcard hj)]
    ring
  · simp only [calcSkillsMatch, if_neg hj, if_neg (hcard hj), hp]
    simp

/-- Witness for C7: the spec's end-to-end scenario, a user holding 2
of the job's 3 required skills scores 200/3. -/
theorem C7_skills_score_formula_witness :
    jW7.skills ≠ [] ∧ (calcSkillsMatch pW7 jW7).1 = 200 / 3 := by
  refine ⟨by decide, ?_⟩
  have h := (C7_skills_score_formula pW7 jW7).2.1 (by decide)
  rw [h]
  have h1 : (((pW7.skills.map lowerStr).toFinset ∩ (jW7.skills.map lowerStr).toFinset).card)
      = 2 := by decide
  have h2 : ((jW7.skills.map lowerStr).toFinset.card) = 3 := by decide
  rw [h1, h2]
  norm_num

/-- Claim C8, amended: for every user profile whose experience entries
all carry a title (the code raises on an absent title), the experience
sub-score is 30 when the user lists no experience; otherwise it is
50 plus 30 for at least 3 entries (else 20 for at least 2, else 10),
plus a one-time bonus of 10 when some entry title shares a
whitespace-split word with the job title, capped at 100. -/
theorem C8_experience_score_formula (p : UserProfile) (j : JobListing)
    (h : ∀ e ∈ p.experience, e.title ≠ none) :
    calcExperienceMatch p j = some (expScoreSpec p j) := by
  by_cases hpe : p.experience = []
  · simp [calcExperienceMatch, expScoreSpec, hpe]
  · rw [calcExperienceMatch, expScoreSpec, if_neg hpe, if_neg hpe]
    dsimp only
    rw [expTitleBonusLoop_eq_any h]
    cases hany : p.experience.any
        (fun e => sharesTitleWord ((splitWs (lowerStr j.title)).toFinset) e) <;>
      split_ifs <;> first | contradiction | norm_num

/-- Witness for C8: two titled experience entries, the first sharing
the word engineer with the job title, give `min (50+20+10) 100 = 80`. -/
theorem C8_experience_score_formula_witness :
    calcExperienceMatch pW8 jW8 = some (expScoreSpec pW8 jW8) ∧
    expScoreSpec pW8 jW8 = 80 := by
  refine ⟨C8_experience_score_formula pW8 jW8 (by decide), ?_⟩
  rw [expScoreSpec, if_neg (by decide)]
  dsimp only
  rw [if_neg (by decide), if_pos (by decide), if_pos (by decide)]
  rw [min_eq_left (by norm_num)]
  norm_num

/-- Claim C9: given a cosine similarity in `[-1, 1]` whenever both
vectors are available, every score field of the produced
`MatchExplanation` lies in `[0, 100]`. -/
theorem C9_scores_in_range (cos : List ℚ → List ℚ → ℚ) (p : UserProfile)
    (j : JobListing) (uemb jemb : Option (List ℚ)) (m : JobMatch)
    (hm : calcMatch cos p j uemb jemb = some m)
    (hcos : ∀ u v, uemb = some u → jemb = some v → -1 ≤ cos u v ∧ cos u v ≤ 1) :
    (0 ≤ m.explanation.overall_score ∧ m.explanation.overall_score ≤ 100) ∧
    (0 ≤ m.explanation.title_score ∧ m.explanation.title_score ≤ 100) ∧
    (0 ≤ m.explanation.skills_score ∧ m.explanation.skills_score ≤ 100) ∧
    (0 ≤ m.explanation.experience_score ∧ m.explanation.experience_score ≤ 100) ∧
    (0 ≤ m.explanation.embedding_score ∧ m.explanation.embedding_score ≤ 100) := by
  obtain ⟨ht0, ht1⟩ := calcTitleMatch_bounds p j
  obtain ⟨hs0, hs1⟩ := calcSkillsMatch_score_bounds p j
  cases hee : calcExperienceMatch p j with
  | none => rw [calcMatch, hee] at hm; exact absurd hm (by simp)
  | some e =>
    obtain ⟨he0, he1⟩ := calcExperienceMatch_bounds hee
    rcases huemb : uemb with _ | u
    · subst huemb
      simp only [calcMatch, hee] at hm
      injection hm with hm
      subst hm
      obtain ⟨hov0, hov1⟩ := blend3_bounds ht0 ht1 hs0 hs1 he0 he1
      simp only [generateExplanation]
      exact ⟨roundTo2_bounds hov0 hov1, roundTo2_bounds ht0 ht1,
        roundTo2_bounds hs0 hs1, roundTo2_bounds he0 he1,
        roundTo2_bounds (le_refl 0) (by norm_num)⟩
    · rcases hjemb : jemb with _ | v
      · subst huemb
        subst hjemb
        simp only [calcMatch, hee] at hm
        injection hm with hm
        subst hm
        obtain ⟨hov0, hov1⟩ := blend3_bounds ht0 ht1 hs0 hs1 he0 he1
        simp only [generateExplanation]
        exact ⟨roundTo2_bounds hov0 hov1, roundTo2_bounds ht0 ht1,
          roundTo2_bounds hs0 hs1, roundTo2_bounds he0 he1,
          roundTo2_bounds (le_refl 0) (by norm_num)⟩
      · obtain ⟨hc0, hc1⟩ := hcos u v huemb hjemb
        subst huemb
        subst hjemb
        simp only [calcMatch, hee] at hm
        injection hm with hm
        subst hm
        obtain ⟨hb0, hb1⟩ := embSim_bounds hc0 hc1
        obtain ⟨hov0, hov1⟩ := blend4_bounds ht0 ht1 hs0 hs1 he0 he1 hb0 hb1
        simp only [generateExplanation]
        exact ⟨roundTo2_bounds hov0 hov1, roundTo2_bounds ht0 ht1,
          roundTo2_bounds hs0 hs1, roundTo2_bounds he0 he1,
          roundTo2_bounds hb0 hb1⟩

/-- Witness for C9 at a concrete call with both vectors available and
a cosine similarity of 0. -/
theorem C9_scores_in_range_witness :
    calcMatch cosZ pW9 jW9 (some [1]) (some [1]) = some mW9 ∧
    (0 ≤ mW9.explanation.overall_score ∧ mW9.explanation.overall_score ≤ 100) ∧
    (0 ≤ mW9.explanation.embedding_score ∧ mW9.explanation.embedding_score ≤ 100) := by
  have hm : calcMatch cosZ pW9 jW9 (some [1]) (some [1]) = some mW9 := rfl
  have hcos : ∀ u v, (some [1] : Option (List ℚ)) = some u →
      (some [1] : Option (List ℚ)) = some v → -1 ≤ cosZ u v ∧ cosZ u v ≤ 1 := by
    intro u v h1 h2
    constructor <;> norm_num [cosZ]
  obtain ⟨h1, h2, h3, h4, h5⟩ :=
    C9_scores_in_range cosZ pW9 jW9 (some [1]) (some [1]) mW9 hm hcos
  exact ⟨hm, h1, h5⟩

end JobRec
